import Mathlib

/-
Verification development for the fishtest-test-tracker repository.

The repository consists of a scheduled fetch-and-process script
(.github/scripts/fetch_and_process.js) and a browser page script.
This file gives a shallow embedding of the data model and the
operations of both scripts, and proves properties about them.

Modelling conventions:
* JavaScript numbers are modelled as rationals (ℚ); quantities that the
  code produces as integers (wins, losses, wml, timestamps, worker
  counts) are modelled as Int/Nat.
* JavaScript objects used as string-keyed dictionaries (the history
  store, raw API data) are modelled as association lists; property
  insertion for a fresh key appends at the end, matching JS enumeration
  order for non-index string keys.
* Fields that may be absent or null are modelled as Option.
* `parseInt(x) || 0` is modelled as an `Option Int` input defaulted
  to 0: a missing/unparseable field and a parsed 0 both yield 0,
  exactly as under the fallback-on-falsy rule of the source.
-/

namespace FishtestTracker

/-- One retained sample of one test, as written by the fetch script:
`{ time, wml, llr }` with `time` a Unix timestamp in seconds. -/
structure HistoryPoint where
  time : Nat
  wml : Int
  llr : Option ℚ
deriving DecidableEq, Repr

/-- The history store: a JS object mapping test id to an array of
history points, oldest first.  Modelled as an association list. -/
abbrev HistoryStore := List (String × List HistoryPoint)

/-- One processed test summary as produced by `processRawData`. -/
structure TestSummary where
  id : String
  username : String
  branch : String
  llr : Option ℚ
  wml : Int
  wins : Int
  losses : Int
  draws : Int
  totalGames : Int
  workers : Int
  sprtElo0 : Option ℚ
deriving DecidableEq, Repr

/-- Property read `store[k]` on the history object: the value at the
first matching key, or none when the key is absent. -/
def lookup : HistoryStore → String → Option (List HistoryPoint)
  | [], _ => none
  | e :: rest, k => if e.1 = k then some e.2 else lookup rest k

/-- Property write `store[k] = v` on the history object: replace the
value at an existing key, or add the key at the end. -/
def setEntry : HistoryStore → String → List HistoryPoint → HistoryStore
  | [], k, v => [(k, v)]
  | e :: rest, k, v => if e.1 = k then (k, v) :: rest else e :: setEntry rest k v

/-- Limit on history points per test (`MAX_HISTORY_POINTS` in
fetch_and_process.js, line 7). -/
def MAX_HISTORY_POINTS : Nat := 864

/-- The change-detection gate of `updateHistoricalData`:
`!lastEntry || lastEntry.wml !== newPoint.wml || lastEntry.llr !== newPoint.llr`.
JS `!==` on two nulls is false, so null equals null here. -/
def shouldAppend : Option HistoryPoint → HistoryPoint → Bool
  | none, _ => true
  | some lastEntry, newPoint =>
      decide (lastEntry.wml ≠ newPoint.wml) || decide (lastEntry.llr ≠ newPoint.llr)

/-- Effect of one loop iteration of `updateHistoricalData` on the
per-test array: push the candidate point when the gate passes, then
drop the oldest point (`shift`) when the cap is exceeded. -/
def stepEntry (testHistory : List HistoryPoint) (newPoint : HistoryPoint) :
    List HistoryPoint :=
  if shouldAppend testHistory.getLast? newPoint then
    let pushed := testHistory ++ [newPoint]
    if MAX_HISTORY_POINTS < pushed.length then pushed.tail else pushed
  else testHistory

/-- The candidate history point built in `updateHistoricalData`. -/
def newPointOf (now : Nat) (test : TestSummary) : HistoryPoint :=
  ⟨now, test.wml, test.llr⟩

/-- Body of the `latestProcessedTests.forEach` loop of
`updateHistoricalData`: ensure the entry exists (creating an empty
array counts as a change), then append the candidate point when the
change-detection gate passes, capping the array length. -/
def updateOne (acc : HistoryStore × Bool) (now : Nat) (test : TestSummary) :
    HistoryStore × Bool :=
  let ensured : HistoryStore × Bool :=
    match lookup acc.1 test.id with
    | none => (setEntry acc.1 test.id [], true)
    | some _ => acc
  let testHistory := (lookup ensured.1 test.id).getD []
  let newPoint := newPointOf now test
  if shouldAppend testHistory.getLast? newPoint then
    (setEntry ensured.1 test.id (stepEntry testHistory newPoint), true)
  else ensured

/-- The function `updateHistoricalData(currentHistory, latestProcessedTests)`
of fetch_and_process.js (lines 96-139): add points for active tests,
then delete entries whose id is not active; return the updated store
and whether anything changed.  The wall-clock read
`Math.floor(Date.now() / 1000)` is passed in as `now`. -/
def updateHistoricalData (currentHistory : HistoryStore)
    (latestProcessedTests : List TestSummary) (now : Nat) :
    HistoryStore × Bool :=
  let activeTestIds := latestProcessedTests.map (·.id)
  let folded := latestProcessedTests.foldl (fun acc test => updateOne acc now test)
    (currentHistory, false)
  let cleaned := folded.1.filter (fun e => decide (e.1 ∈ activeTestIds))
  let removedAny := folded.1.any (fun e => decide (e.1 ∉ activeTestIds))
  (cleaned, folded.2 || removedAny)

/-! The snapshot processor (`processRawData`, fetch_and_process.js lines
49-94).  A raw record is the part of one entry of the external API's
response that the code reads.  Option encodes absence: for `llr` the
code collapses a missing `sprt`, missing `llr` and null `llr` with
`args.sprt?.llr ?? null`; for `elo0` a present-but-unparseable value
(parseFloat giving NaN) is `some none`.  Numeric JSON values are
modelled as rationals/integers. -/

/-- The nested `args.sprt` object of a raw record. -/
structure RawSprt where
  llr : Option ℚ
  elo0 : Option (Option ℚ)
deriving DecidableEq, Repr

/-- The `args` object of a raw record. -/
structure RawArgs where
  sprt : Option RawSprt
  username : Option String
  new_tag : Option String
deriving DecidableEq, Repr

/-- The `results` object of a raw record; each counter is the outcome
of `parseInt(...)`, with none for missing/unparseable. -/
structure RawResults where
  wins : Option Int
  losses : Option Int
  draws : Option Int
deriving DecidableEq, Repr

/-- One raw test record as read by `processRawData`. -/
structure RawTest where
  args : Option RawArgs
  results : Option RawResults
  workers : Option Int
  _id : String
deriving DecidableEq, Repr

/-- The raw API response: a JS object mapping id keys to records. -/
abbrev RawData := List (String × RawTest)

/-- The `{}` fallback of `test.args || {}`. -/
def emptyArgs : RawArgs := ⟨none, none, none⟩

/-- Processing of a single raw record in the loop of `processRawData`. -/
def processOne (test : RawTest) : TestSummary :=
  let args := test.args.getD emptyArgs
  let llr := args.sprt.bind (·.llr)
  let wins := (test.results.bind (·.wins)).getD 0
  let losses := (test.results.bind (·.losses)).getD 0
  let draws := (test.results.bind (·.draws)).getD 0
  let totalGames := wins + losses + draws
  let workers := test.workers.getD 0
  let sprtElo0 : Option ℚ :=
    match args.sprt with
    | none => none
    | some sprt =>
      match sprt.elo0 with
      | none => none
      | some v => v
  ⟨test._id, args.username.getD "N/A", args.new_tag.getD "N/A", llr,
    wins - losses, wins, losses, draws, totalGames, workers, sprtElo0⟩

/-- The comparator of the `processedTests.sort` call, read as an
is-before-or-equivalent relation: `cmp(a, b) <= 0` where `cmp` returns
0 for two nulls, 1 when only `a.llr` is null, -1 when only `b.llr` is
null, and `b.llr - a.llr` otherwise. -/
def llrLe (a b : TestSummary) : Bool :=
  match a.llr, b.llr with
  | none, none => true
  | none, some _ => false
  | some _, none => true
  | some x, some y => decide (y ≤ x)

/-- The function `processRawData(rawData)` of fetch_and_process.js:
process each record of the raw mapping, then sort by LLR descending
with nulls last. -/
def processRawData (rawData : RawData) : List TestSummary :=
  let processedTests := rawData.map (fun e => processOne e.2)
  processedTests.mergeSort llrLe

/-! The browser page script.  JS runtime values that can appear while
building the chart series are modelled by `JsVal`; reading an absent
object property yields `undefined`. -/

/-- A JS value as relevant to the chart code: a number, null, the NaN
sentinel, or undefined. -/
inductive JsVal where
  | num : ℚ → JsVal
  | null : JsVal
  | nan : JsVal
  | undefined : JsVal
deriving DecidableEq, Repr

/-- A stored history point, as the browser sees it after JSON parsing:
an object with exactly the keys the fetch script wrote
(`time`, `wml`, `llr`). -/
def jsPointObj (p : HistoryPoint) : List (String × JsVal) :=
  [("time", JsVal.num (p.time : ℚ)), ("wml", JsVal.num (p.wml : ℚ)),
   ("llr", match p.llr with | some q => JsVal.num q | none => JsVal.null)]

/-- Property access `obj.key` on a JS object: undefined when absent. -/
def objGet (o : List (String × JsVal)) (k : String) : JsVal :=
  match o with
  | [] => JsVal.undefined
  | e :: rest => if e.1 = k then e.2 else objGet rest k

/-- JS multiplication by 1000 (`d.time * 1000`): numbers multiply,
null coerces to 0, NaN and undefined give NaN. -/
def jsMul1000 (v : JsVal) : JsVal :=
  match v with
  | JsVal.num q => JsVal.num (q * 1000)
  | JsVal.null => JsVal.num 0
  | JsVal.nan => JsVal.nan
  | JsVal.undefined => JsVal.nan

/-- The score series built in `updateChartData`:
`testHistory.map(d => ({ x: d.time * 1000, y: d.score }))`. -/
def scoreSeriesOf (testHistory : List HistoryPoint) : List (JsVal × JsVal) :=
  testHistory.map (fun d =>
    (jsMul1000 (objGet (jsPointObj d) "time"), objGet (jsPointObj d) "score"))

/-- The llr series built in `updateChartData`:
`testHistory.map(d => ({ x: d.time * 1000, y: d.llr !== null ? d.llr : NaN }))`. -/
def llrSeriesOf (testHistory : List HistoryPoint) : List (JsVal × JsVal) :=
  testHistory.map (fun d =>
    (jsMul1000 (objGet (jsPointObj d) "time"),
     if objGet (jsPointObj d) "llr" = JsVal.null then JsVal.nan
     else objGet (jsPointObj d) "llr"))

/-- The metric toggle of the chart controller. -/
inductive Metric where
  | score : Metric
  | llr : Metric
deriving DecidableEq, Repr

/-- The chart controller's state: the tracked-test globals
(`currentTrackingTestId`, `currentTrackingBranchName`,
`currentVisibleMetric`) together with the chart object's data and
option fields that the handlers mutate. -/
structure ChartState where
  currentTrackingTestId : Option String
  currentTrackingBranchName : Option String
  currentVisibleMetric : Metric
  scoreData : List (JsVal × JsVal)
  llrData : List (JsVal × JsVal)
  scoreHidden : Bool
  llrHidden : Bool
  yMin : Option Int
  yMax : Option Int
  beginAtZero : Bool
  testEndedVisible : Bool
deriving DecidableEq, Repr

/-- The function `toggleChartMetric(metricToShow)`: record the visible
metric, show exactly one dataset, and fix the y-axis to [-3, 3] for
llr or auto zero-based for score. -/
def toggleChartMetric (metricToShow : Metric) (s : ChartState) : ChartState :=
  { s with
    currentVisibleMetric := metricToShow
    scoreHidden := decide (metricToShow = Metric.llr)
    llrHidden := decide (metricToShow ≠ Metric.llr)
    yMin := if metricToShow = Metric.llr then some (-3) else none
    yMax := if metricToShow = Metric.llr then some 3 else none
    beginAtZero := decide (metricToShow ≠ Metric.llr) }

/-- The function `updateChartData()`: rebuild both series from the
history entry of the tracked id (clearing them when the entry is
missing or empty) and re-derive the ended banner. -/
def updateChartData (allTestsData : List TestSummary)
    (historicalData : HistoryStore) (s : ChartState) : ChartState :=
  match s.currentTrackingTestId with
  | none => s
  | some tid =>
    let testHistory := (lookup historicalData tid).getD []
    if testHistory.isEmpty then
      { s with scoreData := [], llrData := [] }
    else
      { s with
        scoreData := scoreSeriesOf testHistory
        llrData := llrSeriesOf testHistory
        testEndedVisible :=
          !(allTestsData.any (fun test => decide (test.id = tid))) }

/-- The function `initializeChart(testId, branchName)`: set the tracked
test, derive the ended banner, create a fresh chart with empty data and
per-metric visibility, then apply `toggleChartMetric` and
`updateChartData`. -/
def initializeChart (allTestsData : List TestSummary)
    (historicalData : HistoryStore) (testId branchName : String)
    (s : ChartState) : ChartState :=
  let s1 := { s with
    currentTrackingTestId := some testId
    currentTrackingBranchName := some branchName
    testEndedVisible :=
      !(allTestsData.any (fun test => decide (test.id = testId)))
    scoreData := ([] : List (JsVal × JsVal))
    llrData := ([] : List (JsVal × JsVal))
    scoreHidden := decide (s.currentVisibleMetric ≠ Metric.score)
    llrHidden := decide (s.currentVisibleMetric ≠ Metric.llr) }
  let s2 := toggleChartMetric s1.currentVisibleMetric s1
  updateChartData allTestsData historicalData s2

/-- The click handler `handleBranchClick` restricted to a branch-link
target: when the clicked id is already tracked, only scroll (the Bool
result records the scroll side effect); otherwise reset the metric to
llr and re-initialize the chart. -/
def handleBranchClick (allTestsData : List TestSummary)
    (historicalData : HistoryStore) (s : ChartState)
    (testId branchName : String) : ChartState × Bool :=
  if some testId = s.currentTrackingTestId then (s, true)
  else
    let s1 := { s with currentVisibleMetric := Metric.llr }
    (initializeChart allTestsData historicalData testId branchName s1, true)

/-- The constant `LLR_BOUND` of the page script. -/
def LLR_BOUND : ℚ := 2.94443897916644

/-- JS `Math.round`: nearest integer, ties toward positive infinity. -/
def jsRound (x : ℚ) : Int := ⌊x + 1/2⌋

/-- JS `Number.prototype.toFixed(2)`: the numerator of the nearest
2-decimal approximation (ties toward positive infinity), rendered with
exactly two decimals.  (The JS "-0.00" edge for tiny negative inputs is
rendered without the sign here; no claim depends on it.) -/
def jsToFixed2 (x : ℚ) : String :=
  let n : Int := ⌊x * 100 + 1/2⌋
  let sign := if n < 0 then "-" else ""
  let m := n.natAbs
  sign ++ toString (m / 100) ++ "." ++
    (if m % 100 < 10 then "0" else "") ++ toString (m % 100)

/-- The function `formatLLR(llrValue)` of the page script. -/
def formatLLR (llrValue : Option ℚ) : String :=
  match llrValue with
  | none => "N/A"
  | some v =>
    let formattedLLR := jsToFixed2 v
    let percentage := v / LLR_BOUND * 100
    let clamped := max (-100) (min 100 percentage)
    formattedLLR ++ " (" ++ toString (jsRound clamped) ++ "%)"

/-- Clamp as worded by the specification: `clamp(x, lo, hi)`. -/
def clampSpec (x lo hi : ℚ) : ℚ := max lo (min hi x)

/-! The main orchestration of fetch_and_process.js (lines 143-176),
with the file system and network as explicit inputs. -/

/-- Outcome of reading a JSON file from disk: found with parsed
content, missing (ENOENT), or another I/O error. -/
inductive LoadResult (α : Type) where
  | found : α → LoadResult α
  | notFound : LoadResult α
  | readError : LoadResult α

/-- The function `loadJson(filePath, defaultValue)`: ENOENT recovers to
the default, other errors are re-thrown. -/
def loadJson {α : Type} (file : LoadResult α) (defaultValue : α) : Except Unit α :=
  match file with
  | .found a => .ok a
  | .notFound => .ok defaultValue
  | .readError => .error ()

/-- Outcome of the network fetch of the external API: a parsed body, or
a network/non-2xx failure. -/
inductive FetchResult where
  | ok : RawData → FetchResult
  | fetchError : FetchResult

/-- The function `fetchFishtestData()`: an HTTP error or network error
is re-thrown to the caller. -/
def fetchFishtestData (r : FetchResult) : Except Unit RawData :=
  match r with
  | .ok raw => .ok raw
  | .fetchError => .error ()

/-- Observable outcome of one run of the script: the process exit code
and the contents written to the two JSON files (none = not written). -/
structure MainResult where
  exitCode : Nat
  savedLatest : Option (List TestSummary)
  savedHistory : Option HistoryStore
deriving DecidableEq, Repr

/-- The function `main()` with the top-level `.catch(... process.exit(1))`:
load prior history (ENOENT defaulting to `{}`), fetch and process the
raw data, update the history, always save the latest snapshot, and save
the history only when it changed.  Any thrown error reaches the catch
handler, which exits with code 1 before anything is written. -/
def main (historyFile : LoadResult HistoryStore) (fetch : FetchResult)
    (now : Nat) : MainResult :=
  match loadJson historyFile ([] : HistoryStore) with
  | .error _ => ⟨1, none, none⟩
  | .ok currentHistory =>
    match fetchFishtestData fetch with
    | .error _ => ⟨1, none, none⟩
    | .ok rawData =>
      let latestProcessedTests := processRawData rawData
      let result := updateHistoricalData currentHistory latestProcessedTests now
      ⟨0, some latestProcessedTests,
        if result.2 then some result.1 else none⟩

/-! Concrete sample values used by the closed instantiations below. -/

/-- A history point with wml 0 and null llr. -/
def samplePoint : HistoryPoint := ⟨0, 0, none⟩

/-- A history point with wml 1 and null llr, matching `sampleTest`. -/
def samplePointWml1 : HistoryPoint := ⟨0, 1, none⟩

/-- A history point with a nonzero timestamp, used for the chart
series evaluation. -/
def samplePointT100 : HistoryPoint := ⟨100, 5, none⟩

/-- A test summary with id "t1", wml 1 and null llr. -/
def sampleTest : TestSummary :=
  ⟨"t1", "user", "branch", none, 1, 1, 0, 0, 1, 0, none⟩

/-- A chart state currently tracking test "t1" with the llr metric. -/
def sampleChartState : ChartState :=
  ⟨some "t1", some "branch", Metric.llr, [], [], true, false,
    some (-3), some 3, false, false⟩

/-! Basic lemmas about the association-list store. -/

theorem lookup_setEntry_self (s : HistoryStore) (k : String) (v : List HistoryPoint) :
    lookup (setEntry s k v) k = some v := by
  induction s with
  | nil => simp [setEntry, lookup]
  | cons e rest ih =>
    by_cases h : e.1 = k
    · simp [setEntry, h, lookup]
    · simp [setEntry, h, lookup, ih]

theorem lookup_setEntry_ne (s : HistoryStore) (k k' : String)
    (v : List HistoryPoint) (h : k' ≠ k) :
    lookup (setEntry s k v) k' = lookup s k' := by
  induction s with
  | nil => simp [setEntry, lookup, Ne.symm h]
  | cons e rest ih =>
    by_cases he : e.1 = k
    · subst he
      simp [setEntry, lookup, Ne.symm h]
    · simp only [setEntry, if_neg he]
      by_cases he' : e.1 = k'
      · simp [lookup, he']
      · simp [lookup, he', ih]

theorem lookup_filter (p : String → Bool) (s : HistoryStore) (k : String) :
    lookup (s.filter (fun e => p e.1)) k = if p k then lookup s k else none := by
  induction s with
  | nil => simp [lookup]
  | cons e rest ih =>
    by_cases hp : p e.1 = true
    · by_cases he : e.1 = k
      · subst he
        simp [List.filter_cons, hp, lookup]
      · simp [List.filter_cons, hp, lookup, he, ih]
    · have hp' : p e.1 = false := by simpa using hp
      by_cases he : e.1 = k
      · subst he
        simp [List.filter_cons, hp', lookup, ih]
      · simp [List.filter_cons, hp', lookup, he, ih]

/-- Characterization of one loop iteration: the entry for the test's
own id becomes `stepEntry` of the previous entry (empty when absent),
and every other entry is untouched. -/
theorem lookup_updateOne (acc : HistoryStore × Bool) (now : Nat)
    (test : TestSummary) (k : String) :
    lookup (updateOne acc now test).1 k =
      if k = test.id then
        some (stepEntry ((lookup acc.1 test.id).getD []) (newPointOf now test))
      else lookup acc.1 k := by
  unfold updateOne
  cases hl : lookup acc.1 test.id with
  | none =>
    simp only [hl]
    have h1 : lookup (setEntry acc.1 test.id []) test.id = some [] :=
      lookup_setEntry_self _ _ _
    simp only [h1, Option.getD_some]
    have hgate : shouldAppend ([] : List HistoryPoint).getLast? (newPointOf now test) = true := rfl
    simp only [hgate, if_true]
    by_cases hk : k = test.id
    · subst hk
      simp [lookup_setEntry_self]
    · simp [lookup_setEntry_ne _ _ _ _ hk, hk]
  | some h =>
    simp only [hl, Option.getD_some]
    by_cases hgate : shouldAppend h.getLast? (newPointOf now test) = true
    · simp only [hgate, if_true]
      by_cases hk : k = test.id
      · subst hk
        simp [lookup_setEntry_self, stepEntry, hgate]
      · simp [lookup_setEntry_ne _ _ _ _ hk, hk]
    · have hgate' : shouldAppend h.getLast? (newPointOf now test) = false := by
        simpa using hgate
      simp only [hgate', Bool.false_eq_true, if_false]
      by_cases hk : k = test.id
      · subst hk
        simp [hl, stepEntry, hgate']
      · simp [hk]

/-- When the store already has an entry for the test and the gate
fails, the iteration leaves the whole accumulator unchanged. -/
theorem updateOne_no_change (acc : HistoryStore × Bool) (now : Nat)
    (test : TestSummary) (h : List HistoryPoint)
    (hl : lookup acc.1 test.id = some h)
    (hgate : shouldAppend h.getLast? (newPointOf now test) = false) :
    updateOne acc now test = acc := by
  unfold updateOne
  simp [hl, hgate]

/-! Lemmas about the per-test fold of `updateHistoricalData`. -/

theorem lookup_foldl_of_filter_nil (now : Nat) (k : String) :
    ∀ (ts : List TestSummary) (acc : HistoryStore × Bool),
      ts.filter (fun u => decide (u.id = k)) = [] →
      lookup (ts.foldl (fun acc test => updateOne acc now test) acc).1 k =
        lookup acc.1 k := by
  intro ts
  induction ts with
  | nil => intro acc _; rfl
  | cons u rest ih =>
    intro acc hf
    rw [List.filter_cons] at hf
    by_cases hu : u.id = k
    · simp [hu] at hf
    · simp only [hu, decide_eq_true_eq, if_neg (fun hh : (u.id = k) => hu hh)] at hf
      rw [List.foldl_cons, ih _ hf, lookup_updateOne]
      simp [Ne.symm hu]

theorem lookup_foldl_of_filter_singleton (now : Nat) (k : String) (t : TestSummary) :
    ∀ (ts : List TestSummary) (acc : HistoryStore × Bool),
      ts.filter (fun u => decide (u.id = k)) = [t] →
      lookup (ts.foldl (fun acc test => updateOne acc now test) acc).1 k =
        some (stepEntry ((lookup acc.1 k).getD []) (newPointOf now t)) := by
  intro ts
  induction ts with
  | nil => intro acc h; simp at h
  | cons u rest ih =>
    intro acc hf
    rw [List.filter_cons] at hf
    by_cases hu : u.id = k
    · rw [if_pos (by simpa using hu)] at hf
      have hut : u = t := (List.cons.injEq u _ t []).mp hf |>.1
      have hrest : rest.filter (fun u => decide (u.id = k)) = [] :=
        (List.cons.injEq u _ t []).mp hf |>.2
      subst hut
      rw [List.foldl_cons, lookup_foldl_of_filter_nil now k rest _ hrest,
        lookup_updateOne]
      rw [if_pos hu.symm, hu]
    · rw [if_neg (by simpa using hu)] at hf
      rw [List.foldl_cons, ih _ hf, lookup_updateOne]
      simp [Ne.symm hu]

theorem stepEntry_length_le (h : List HistoryPoint) (p : HistoryPoint)
    (hle : h.length ≤ MAX_HISTORY_POINTS) :
    (stepEntry h p).length ≤ MAX_HISTORY_POINTS := by
  simp only [stepEntry]
  split
  · split
    · next hlen =>
      rw [List.length_tail]
      simp only [List.length_append, List.length_singleton] at *
      omega
    · next hlen =>
      simp only [List.length_append, List.length_singleton] at *
      omega
  · exact hle

theorem foldl_length_le (now : Nat) :
    ∀ (ts : List TestSummary) (acc : HistoryStore × Bool),
      (∀ k h, lookup acc.1 k = some h → h.length ≤ MAX_HISTORY_POINTS) →
      ∀ k h, lookup (ts.foldl (fun acc test => updateOne acc now test) acc).1 k
          = some h → h.length ≤ MAX_HISTORY_POINTS := by
  intro ts
  induction ts with
  | nil => intro acc hinv; exact hinv
  | cons u rest ih =>
    intro acc hinv
    rw [List.foldl_cons]
    apply ih
    intro k h hl
    rw [lookup_updateOne] at hl
    by_cases hk : k = u.id
    · rw [if_pos hk] at hl
      have hh : h = stepEntry ((lookup acc.1 u.id).getD []) (newPointOf now u) :=
        (Option.some.injEq _ _).mp hl |>.symm
      subst hh
      apply stepEntry_length_le
      cases hlook : lookup acc.1 u.id with
      | none => simp
      | some h0 => simpa [hlook] using hinv u.id h0 hlook
    · rw [if_neg hk] at hl
      exact hinv k h hl

theorem lookup_updateOne_isSome_self (acc : HistoryStore × Bool) (now : Nat)
    (test : TestSummary) : (lookup (updateOne acc now test).1 test.id).isSome := by
  rw [lookup_updateOne]
  simp

theorem lookup_updateOne_isSome_mono (acc : HistoryStore × Bool) (now : Nat)
    (test : TestSummary) (k : String) (h : (lookup acc.1 k).isSome) :
    (lookup (updateOne acc now test).1 k).isSome := by
  rw [lookup_updateOne]
  split
  · simp
  · exact h

theorem foldl_isSome_mono (now : Nat) :
    ∀ (ts : List TestSummary) (acc : HistoryStore × Bool) (k : String),
      (lookup acc.1 k).isSome →
      (lookup (ts.foldl (fun acc test => updateOne acc now test) acc).1 k).isSome := by
  intro ts
  induction ts with
  | nil => intro acc k h; exact h
  | cons u rest ih =>
    intro acc k h
    rw [List.foldl_cons]
    exact ih _ k (lookup_updateOne_isSome_mono acc now u k h)

theorem foldl_isSome_of_mem (now : Nat) :
    ∀ (ts : List TestSummary) (t : TestSummary), t ∈ ts →
      ∀ acc : HistoryStore × Bool,
      (lookup (ts.foldl (fun acc test => updateOne acc now test) acc).1 t.id).isSome := by
  intro ts
  induction ts with
  | nil => intro t ht; cases ht
  | cons u rest ih =>
    intro t ht acc
    rw [List.foldl_cons]
    rcases List.mem_cons.mp ht with rfl | hmem
    · exact foldl_isSome_mono now rest _ t.id
        (lookup_updateOne_isSome_self acc now t)
    · exact ih t hmem _

theorem stepEntry_getLast? (h : List HistoryPoint) (p : HistoryPoint) :
    ∃ q, (stepEntry h p).getLast? = some q ∧ q.wml = p.wml ∧ q.llr = p.llr := by
  simp only [stepEntry]
  split
  · split
    · next hlen =>
      refine ⟨p, ?_, rfl, rfl⟩
      have hne : h ≠ [] := by
        intro he
        subst he
        simp [MAX_HISTORY_POINTS] at hlen
      obtain ⟨a, h', rfl⟩ := List.exists_cons_of_ne_nil hne
      simp
    · exact ⟨p, List.getLast?_concat h, rfl, rfl⟩
  · next hgate =>
    rcases hlast : h.getLast? with _ | q
    · exfalso
      rw [hlast] at hgate
      simp [shouldAppend] at hgate
    · rw [hlast] at hgate
      simp only [shouldAppend, Bool.or_eq_true, decide_eq_true_eq, not_or,
        not_not] at hgate
      exact ⟨q, hlast ▸ rfl, hgate.1, hgate.2⟩

theorem filter_eq_singleton_of_nodup :
    ∀ (ts : List TestSummary) (t : TestSummary),
      (ts.map (·.id)).Nodup → t ∈ ts →
      ts.filter (fun u => decide (u.id = t.id)) = [t] := by
  intro ts
  induction ts with
  | nil => intro t _ ht; cases ht
  | cons u rest ih =>
    intro t hnd ht
    rw [List.map_cons, List.nodup_cons] at hnd
    obtain ⟨hnotin, hnd'⟩ := hnd
    rcases List.mem_cons.mp ht with rfl | hmem
    · rw [List.filter_cons]
      have hrest : rest.filter (fun u => decide (u.id = t.id)) = [] := by
        rw [List.filter_eq_nil_iff]
        intro a ha
        simp only [decide_eq_true_eq]
        intro hid
        exact hnotin (hid ▸ List.mem_map_of_mem (·.id) ha)
      simp [hrest]
    · have hne : u.id ≠ t.id := by
        intro he
        exact hnotin (he ▸ List.mem_map_of_mem (·.id) hmem)
      rw [List.filter_cons, if_neg (by simpa using hne)]
      exact ih t hnd' hmem

theorem foldl_no_change (now : Nat) :
    ∀ (ts : List TestSummary) (s : HistoryStore) (c : Bool),
      (∀ t ∈ ts, ∃ h, lookup s t.id = some h ∧
        shouldAppend h.getLast? (newPointOf now t) = false) →
      ts.foldl (fun acc test => updateOne acc now test) (s, c) = (s, c) := by
  intro ts
  induction ts with
  | nil => intro s c _; rfl
  | cons u rest ih =>
    intro s c hcond
    rw [List.foldl_cons]
    obtain ⟨h, hl, hg⟩ := hcond u (List.mem_cons_self u rest)
    rw [updateOne_no_change (s, c) now u h hl hg]
    exact ih s c (fun t ht => hcond t (List.mem_cons_of_mem u ht))

/-- Lookup in the store returned by `updateHistoricalData`: the cleanup
pass deletes every key that is not an active test id, and active keys
read from the result of the per-test fold. -/
theorem lookup_updateHistoricalData (s : HistoryStore) (ts : List TestSummary)
    (now : Nat) (k : String) :
    lookup (updateHistoricalData s ts now).1 k =
      if k ∈ ts.map (·.id) then
        lookup (ts.foldl (fun acc test => updateOne acc now test) (s, false)).1 k
      else none := by
  simp only [updateHistoricalData]
  rw [lookup_filter (fun x => decide (x ∈ ts.map (·.id)))]
  by_cases hk : k ∈ ts.map (·.id)
  · simp [hk]
  · simp [hk]

/-- When the store already satisfies the claims of the second cycle
(no gate passes and every key is active), `updateHistoricalData`
returns the store unchanged with the change flag false. -/
theorem updateHistoricalData_no_change (s1 : HistoryStore)
    (ts : List TestSummary) (now2 : Nat)
    (hcond : ∀ t ∈ ts, ∃ h, lookup s1 t.id = some h ∧
      shouldAppend h.getLast? (newPointOf now2 t) = false)
    (hkeys : ∀ e ∈ s1, e.1 ∈ ts.map (·.id)) :
    updateHistoricalData s1 ts now2 = (s1, false) := by
  have h1 : s1.filter (fun e => decide (e.1 ∈ ts.map (·.id))) = s1 :=
    List.filter_eq_self.mpr (fun e he => by simpa using hkeys e he)
  have h2 : s1.any (fun e => decide (e.1 ∉ ts.map (·.id))) = false :=
    List.any_eq_false.mpr (fun e he => by simpa using hkeys e he)
  simp only [updateHistoricalData]
  rw [foldl_no_change now2 ts s1 false hcond]
  show (s1.filter (fun e => decide (e.1 ∈ ts.map (·.id))),
      false || s1.any (fun e => decide (e.1 ∉ ts.map (·.id)))) = (s1, false)
  rw [h1, h2]
  rfl

/-- C1: for an input store whose per-test sequences all have length at
most `MAX_HISTORY_POINTS` (864), after `updateHistoricalData` every
per-test sequence of the resulting store still has length at most 864;
and for a test whose sequence is exactly full (864 points), appending a
new distinct point (one passing the change-detection gate) replaces the
sequence by its tail followed by the new point, i.e. the oldest point
is dropped (FIFO). -/
theorem c1_history_cap_and_fifo
    (s : HistoryStore) (ts : List TestSummary) (now : Nat)
    (hbound : ∀ k h, lookup s k = some h → h.length ≤ MAX_HISTORY_POINTS) :
    (∀ k h', lookup (updateHistoricalData s ts now).1 k = some h' →
      h'.length ≤ MAX_HISTORY_POINTS) ∧
    (∀ (t : TestSummary) (h : List HistoryPoint),
      ts.filter (fun u => decide (u.id = t.id)) = [t] →
      lookup s t.id = some h →
      h.length = MAX_HISTORY_POINTS →
      shouldAppend h.getLast? (newPointOf now t) = true →
      lookup (updateHistoricalData s ts now).1 t.id =
        some (h.tail ++ [newPointOf now t])) := by
  constructor
  · intro k h' hl
    rw [lookup_updateHistoricalData] at hl
    by_cases hk : k ∈ ts.map (·.id)
    · rw [if_pos hk] at hl
      exact foldl_length_le now ts (s, false) hbound k h' hl
    · rw [if_neg hk] at hl
      cases hl
  · intro t h hfilter hlook hlen hgate
    have ht : t ∈ ts :=
      (List.mem_filter.mp (hfilter ▸ List.mem_singleton_self t)).1
    have hmem : t.id ∈ ts.map (·.id) := List.mem_map_of_mem (·.id) ht
    rw [lookup_updateHistoricalData, if_pos hmem,
      lookup_foldl_of_filter_singleton now t.id t ts _ hfilter, hlook]
    simp only [Option.getD_some]
    congr 1
    simp only [stepEntry, hgate, if_true]
    have hlong : MAX_HISTORY_POINTS < (h ++ [newPointOf now t]).length := by
      simp only [List.length_append, List.length_singleton]
      omega
    rw [if_pos hlong]
    have hne : h ≠ [] := by
      intro he
      subst he
      simp [MAX_HISTORY_POINTS] at hlen
    obtain ⟨a, h', rfl⟩ := List.exists_cons_of_ne_nil hne
    simp

/-- C2: `updateHistoricalData` appends a point for a test only when the
test's sequence is empty or the candidate differs from the last point
in `wml` or `llr` (value equality, null equal to null): when the last
point matches, the test's sequence is returned unchanged; and a second
cycle run on the output of a first cycle with the same summaries (hence
identical (wml, llr) per test) leaves the whole store unchanged and
reports no change. -/
theorem c2_change_detection
    (s : HistoryStore) (ts : List TestSummary) (now now2 : Nat) :
    (∀ (t : TestSummary) (h : List HistoryPoint) (lastEntry : HistoryPoint),
      ts.filter (fun u => decide (u.id = t.id)) = [t] →
      lookup s t.id = some h →
      h.getLast? = some lastEntry →
      lastEntry.wml = t.wml →
      lastEntry.llr = t.llr →
      lookup (updateHistoricalData s ts now).1 t.id = some h) ∧
    ((ts.map (·.id)).Nodup →
      updateHistoricalData (updateHistoricalData s ts now).1 ts now2 =
        ((updateHistoricalData s ts now).1, false)) := by
  constructor
  · intro t h lastEntry hfilter hlook hlast hwml hllr
    have ht : t ∈ ts :=
      (List.mem_filter.mp (hfilter ▸ List.mem_singleton_self t)).1
    have hmem : t.id ∈ ts.map (·.id) := List.mem_map_of_mem (·.id) ht
    rw [lookup_updateHistoricalData, if_pos hmem,
      lookup_foldl_of_filter_singleton now t.id t ts _ hfilter, hlook]
    simp [stepEntry, shouldAppend, hlast, hwml, hllr, newPointOf]
  · intro hnd
    apply updateHistoricalData_no_change
    · intro t ht
      have hfilter := filter_eq_singleton_of_nodup ts t hnd ht
      have hmem : t.id ∈ ts.map (·.id) := List.mem_map_of_mem (·.id) ht
      have hl1 : lookup (updateHistoricalData s ts now).1 t.id =
          some (stepEntry ((lookup s t.id).getD []) (newPointOf now t)) := by
        rw [lookup_updateHistoricalData, if_pos hmem,
          lookup_foldl_of_filter_singleton now t.id t ts _ hfilter]
      obtain ⟨q, hq, hqwml, hqllr⟩ :=
        stepEntry_getLast? ((lookup s t.id).getD []) (newPointOf now t)
      refine ⟨_, hl1, ?_⟩
      rw [hq]
      simp [shouldAppend, hqwml, hqllr, newPointOf]
    · intro e he
      have : e ∈ (updateHistoricalData s ts now).1 := he
      simp only [updateHistoricalData] at this
      have := List.mem_filter.mp this
      simpa using this.2

/-- C3: after one call to `updateHistoricalData`, every id absent from
the summary list has no entry in the resulting store (an ended test
loses its history), and every id present in the summary list has an
entry in the resulting store. -/
theorem c3_prune_and_keep
    (s : HistoryStore) (ts : List TestSummary) (now : Nat) (k : String) :
    (k ∉ ts.map (·.id) → lookup (updateHistoricalData s ts now).1 k = none) ∧
    (k ∈ ts.map (·.id) → (lookup (updateHistoricalData s ts now).1 k).isSome) := by
  constructor
  · intro hk
    rw [lookup_updateHistoricalData, if_neg hk]
  · intro hk
    rw [lookup_updateHistoricalData, if_pos hk]
    obtain ⟨t, ht, rfl⟩ := List.mem_map.mp hk
    exact foldl_isSome_of_mem now ts t ht (s, false)

/-- C10: `updateHistoricalData` preserves the 864-point cap but does not
establish it: for a test whose input sequence already has more than 864
points, the call removes at most one oldest point, and only when a new
point is appended, so the resulting sequence keeps the same length and
still exceeds 864 points. -/
theorem c10_cap_preserved_not_established
    (s : HistoryStore) (ts : List TestSummary) (now : Nat)
    (t : TestSummary) (h : List HistoryPoint)
    (hfilter : ts.filter (fun u => decide (u.id = t.id)) = [t])
    (hlook : lookup s t.id = some h)
    (hlen : MAX_HISTORY_POINTS < h.length) :
    ∃ h', lookup (updateHistoricalData s ts now).1 t.id = some h' ∧
      h'.length = h.length ∧ MAX_HISTORY_POINTS < h'.length ∧
      h' = if shouldAppend h.getLast? (newPointOf now t) then
        h.tail ++ [newPointOf now t] else h := by
  have ht : t ∈ ts :=
    (List.mem_filter.mp (hfilter ▸ List.mem_singleton_self t)).1
  have hmem : t.id ∈ ts.map (·.id) := List.mem_map_of_mem (·.id) ht
  have hl1 : lookup (updateHistoricalData s ts now).1 t.id =
      some (stepEntry h (newPointOf now t)) := by
    rw [lookup_updateHistoricalData, if_pos hmem,
      lookup_foldl_of_filter_singleton now t.id t ts _ hfilter, hlook]
    simp only [Option.getD_some]
  have hne : h ≠ [] := by
    intro he
    subst he
    simp at hlen
  refine ⟨stepEntry h (newPointOf now t), hl1, ?_, ?_, ?_⟩
  · simp only [stepEntry]
    split
    · have hlong : MAX_HISTORY_POINTS < (h ++ [newPointOf now t]).length := by
        simp only [List.length_append, List.length_singleton]
        omega
      rw [if_pos hlong, List.length_tail]
      simp only [List.length_append, List.length_singleton]
      omega
    · rfl
  · simp only [stepEntry]
    split
    · have hlong : MAX_HISTORY_POINTS < (h ++ [newPointOf now t]).length := by
        simp only [List.length_append, List.length_singleton]
        omega
      rw [if_pos hlong, List.length_tail]
      simp only [List.length_append, List.length_singleton]
      omega
    · exact hlen
  · simp only [stepEntry]
    split
    · have hlong : MAX_HISTORY_POINTS < (h ++ [newPointOf now t]).length := by
        simp only [List.length_append, List.length_singleton]
        omega
      rw [if_pos hlong]
      obtain ⟨a, h', rfl⟩ := List.exists_cons_of_ne_nil hne
      simp
    · rfl

theorem llrLe_trans : ∀ a b c : TestSummary, llrLe a b = true →
    llrLe b c = true → llrLe a c = true := by
  intro a b c hab hbc
  cases ha : a.llr <;> cases hb : b.llr <;> cases hc : c.llr <;>
    simp_all [llrLe] <;> exact le_trans hbc hab

theorem llrLe_total : ∀ a b : TestSummary, (llrLe a b || llrLe b a) = true := by
  intro a b
  cases ha : a.llr <;> cases hb : b.llr <;> simp_all [llrLe]
  exact le_total _ _

/-- C4: the TestSummary list returned by `processRawData` is sorted so
that for any earlier/later pair, either both llr values are present
with the earlier one at least the later one, or the earlier is present
and the later null, or both are null. -/
theorem c4_sorted_llr_descending (rawData : RawData) :
    (processRawData rawData).Pairwise (fun a b =>
      (∃ x y, a.llr = some x ∧ b.llr = some y ∧ y ≤ x) ∨
      (a.llr ≠ none ∧ b.llr = none) ∨
      (a.llr = none ∧ b.llr = none)) := by
  have hs := List.sorted_mergeSort llrLe_trans llrLe_total
    (rawData.map (fun e => processOne e.2))
  have hdef : processRawData rawData =
      (rawData.map (fun e => processOne e.2)).mergeSort llrLe := rfl
  rw [hdef]
  refine hs.imp ?_
  intro a b hab
  rcases ha : a.llr with _ | x <;> rcases hb : b.llr with _ | y
  · exact Or.inr (Or.inr ⟨rfl, rfl⟩)
  · exfalso
    simp [llrLe, ha, hb] at hab
  · exact Or.inr (Or.inl ⟨by simp, rfl⟩)
  · refine Or.inl ⟨x, y, rfl, rfl, ?_⟩
    simpa [llrLe, ha, hb] using hab

/-- C5: evaluation of the chart series rebuild at a stored history
point `{time: 100, wml: 5, llr: null}`.  The llr series behaves as the
claim says (time scaled to milliseconds, null mapped to the NaN
sentinel), but the score series reads the `score` property, which the
fetch script never writes: its value is `undefined`, not a field of the
stored HistoryPoint (whose `wml` field is present and unused). -/
theorem c5_score_series_value_undefined :
    (updateChartData [] [("t1", [samplePointT100])] sampleChartState).scoreData =
      [(JsVal.num 100000, JsVal.undefined)] ∧
    (updateChartData [] [("t1", [samplePointT100])] sampleChartState).llrData =
      [(JsVal.num 100000, JsVal.nan)] ∧
    objGet (jsPointObj samplePointT100) "wml" = JsVal.num 5 := by
  refine ⟨?_, ?_, ?_⟩ <;>
    simp [updateChartData, sampleChartState, lookup, samplePointT100,
      scoreSeriesOf, llrSeriesOf, jsPointObj, objGet, jsMul1000] <;>
    norm_num

/-- C6: `formatLLR` returns "N/A" for a null llr, and otherwise the
llr to 2 decimals followed by a parenthesized percentage equal to
`clamp(llr / 2.94443897916644 * 100, -100, 100)` rounded to the nearest
integer; in particular llr = 1.47221948958322 gives "1.47 (50%)". -/
theorem c6_formatLLR_spec :
    (∀ v : ℚ, formatLLR (some v) =
      jsToFixed2 v ++ " (" ++
        toString (jsRound (clampSpec (v / 2.94443897916644 * 100) (-100) 100)) ++
        "%)") ∧
    formatLLR none = "N/A" ∧
    formatLLR (some 1.47221948958322) = "1.47 (50%)" := by
  refine ⟨fun v => rfl, rfl, ?_⟩
  have h1 : (1.47221948958322 : ℚ) / LLR_BOUND * 100 = 50 := by
    show (1.47221948958322 : ℚ) / (2.94443897916644 : ℚ) * 100 = 50
    norm_num
  have h2 : max (-100 : ℚ) (min 100 (50 : ℚ)) = 50 := by norm_num
  have h3 : jsRound (50 : ℚ) = 50 := by
    show (⌊(50 : ℚ) + 1/2⌋ : ℤ) = 50
    norm_num [Int.floor_eq_iff]
  have h4 : jsToFixed2 (1.47221948958322 : ℚ) = "1.47" := by
    have hf : ⌊(1.47221948958322 : ℚ) * 100 + 1/2⌋ = (147 : ℤ) := by
      norm_num [Int.floor_eq_iff]
    simp only [jsToFixed2, hf]
    rfl
  simp only [formatLLR, h1, h2, h3, h4]
  rfl

/-- C7: when the API fetch fails, the run is fatal: the process exits
with a non-zero code and neither the snapshot file nor the history file
is written. -/
theorem c7_fetch_failure_is_fatal (historyFile : LoadResult HistoryStore)
    (now : Nat) :
    (main historyFile FetchResult.fetchError now).exitCode ≠ 0 ∧
    (main historyFile FetchResult.fetchError now).savedLatest = none ∧
    (main historyFile FetchResult.fetchError now).savedHistory = none := by
  cases historyFile <;> simp [main, loadJson, fetchFishtestData]

/-- C8: selecting the test that is already tracked changes nothing in
the chart controller's state (tracked id and branch, visible metric,
series data, axis configuration, banner); the handler only performs the
scroll side effect. -/
theorem c8_reselect_tracked_test_is_noop (allTestsData : List TestSummary)
    (historicalData : HistoryStore) (s : ChartState)
    (testId branchName : String)
    (h : s.currentTrackingTestId = some testId) :
    handleBranchClick allTestsData historicalData s testId branchName =
      (s, true) := by
  unfold handleBranchClick
  rw [h, if_pos rfl]

/-- C9: on a successful cycle the latest-snapshot file is always
written with the processed list, and the history file is written
exactly when `updateHistoricalData` reports a change. -/
theorem c9_snapshot_always_history_gated (historyFile : LoadResult HistoryStore)
    (rawData : RawData) (now : Nat) (h0 : HistoryStore)
    (hload : loadJson historyFile ([] : HistoryStore) = Except.ok h0) :
    (main historyFile (FetchResult.ok rawData) now).exitCode = 0 ∧
    (main historyFile (FetchResult.ok rawData) now).savedLatest =
      some (processRawData rawData) ∧
    (main historyFile (FetchResult.ok rawData) now).savedHistory =
      (if (updateHistoricalData h0 (processRawData rawData) now).2 then
        some (updateHistoricalData h0 (processRawData rawData) now).1
      else none) := by
  unfold main
  rw [hload]
  simp [fetchFishtestData]

/-! Closed instantiations of the theorems with hypotheses. -/

set_option maxRecDepth 100000 in
theorem c1_history_cap_and_fifo_witness :
    (∀ k h, lookup ([("t1", List.replicate 864 samplePoint)] : HistoryStore) k =
        some h → h.length ≤ MAX_HISTORY_POINTS) ∧
    ([sampleTest].filter (fun u => decide (u.id = sampleTest.id)) = [sampleTest]) ∧
    (List.replicate 864 samplePoint).length = MAX_HISTORY_POINTS ∧
    shouldAppend (List.replicate 864 samplePoint).getLast?
      (newPointOf 5 sampleTest) = true ∧
    lookup (updateHistoricalData [("t1", List.replicate 864 samplePoint)]
        [sampleTest] 5).1 sampleTest.id =
      some ((List.replicate 864 samplePoint).tail ++ [newPointOf 5 sampleTest]) := by
  have hbound : ∀ k h,
      lookup ([("t1", List.replicate 864 samplePoint)] : HistoryStore) k =
        some h → h.length ≤ MAX_HISTORY_POINTS := by
    intro k h hl
    simp only [lookup] at hl
    split at hl
    · cases hl
      simp [MAX_HISTORY_POINTS]
    · cases hl
  refine ⟨hbound, rfl, by simp [MAX_HISTORY_POINTS], by decide, ?_⟩
  exact (c1_history_cap_and_fifo _ [sampleTest] 5 hbound).2 sampleTest
    (List.replicate 864 samplePoint) rfl rfl (by simp [MAX_HISTORY_POINTS])
    (by decide)

theorem c2_change_detection_witness :
    ([sampleTest].filter (fun u => decide (u.id = sampleTest.id)) = [sampleTest]) ∧
    lookup ([("t1", [samplePointWml1])] : HistoryStore) sampleTest.id =
      some [samplePointWml1] ∧
    [samplePointWml1].getLast? = some samplePointWml1 ∧
    samplePointWml1.wml = sampleTest.wml ∧
    samplePointWml1.llr = sampleTest.llr ∧
    lookup (updateHistoricalData [("t1", [samplePointWml1])] [sampleTest] 7).1
      sampleTest.id = some [samplePointWml1] ∧
    ([sampleTest].map (·.id)).Nodup ∧
    updateHistoricalData (updateHistoricalData [] [sampleTest] 1).1 [sampleTest] 2 =
      ((updateHistoricalData [] [sampleTest] 1).1, false) := by
  refine ⟨rfl, rfl, rfl, rfl, rfl, ?_, by simp, ?_⟩
  · exact (c2_change_detection [("t1", [samplePointWml1])] [sampleTest] 7 0).1
      sampleTest [samplePointWml1] samplePointWml1 rfl rfl rfl rfl rfl
  · exact (c2_change_detection [] [sampleTest] 1 2).2 (by simp)

theorem c3_prune_and_keep_witness :
    ("old" ∉ [sampleTest].map (·.id)) ∧
    lookup (updateHistoricalData [("old", [samplePoint])] [sampleTest] 3).1 "old" =
      none ∧
    ("t1" ∈ [sampleTest].map (·.id)) ∧
    (lookup (updateHistoricalData [("old", [samplePoint])] [sampleTest] 3).1
      "t1").isSome := by
  refine ⟨by decide, ?_, by decide, ?_⟩
  · exact (c3_prune_and_keep [("old", [samplePoint])] [sampleTest] 3 "old").1
      (by decide)
  · exact (c3_prune_and_keep [("old", [samplePoint])] [sampleTest] 3 "t1").2
      (by decide)

theorem c8_reselect_tracked_test_is_noop_witness :
    sampleChartState.currentTrackingTestId = some "t1" ∧
    handleBranchClick [] [] sampleChartState "t1" "branch" =
      (sampleChartState, true) :=
  ⟨rfl, c8_reselect_tracked_test_is_noop [] [] sampleChartState "t1" "branch" rfl⟩

theorem c9_snapshot_always_history_gated_witness :
    loadJson (LoadResult.notFound : LoadResult HistoryStore) ([] : HistoryStore) =
      Except.ok ([] : HistoryStore) ∧
    (main LoadResult.notFound (FetchResult.ok []) 4).exitCode = 0 ∧
    (main LoadResult.notFound (FetchResult.ok []) 4).savedLatest =
      some (processRawData []) ∧
    (main LoadResult.notFound (FetchResult.ok []) 4).savedHistory =
      (if (updateHistoricalData [] (processRawData []) 4).2 then
        some (updateHistoricalData [] (processRawData []) 4).1
      else none) := by
  refine ⟨rfl, ?_, ?_, ?_⟩
  · exact (c9_snapshot_always_history_gated LoadResult.notFound [] 4 [] rfl).1
  · exact (c9_snapshot_always_history_gated LoadResult.notFound [] 4 [] rfl).2.1
  · exact (c9_snapshot_always_history_gated LoadResult.notFound [] 4 [] rfl).2.2

set_option maxRecDepth 100000 in
theorem c10_cap_preserved_not_established_witness :
    ([sampleTest].filter (fun u => decide (u.id = sampleTest.id)) = [sampleTest]) ∧
    lookup ([("t1", List.replicate 866 samplePoint)] : HistoryStore) sampleTest.id =
      some (List.replicate 866 samplePoint) ∧
    MAX_HISTORY_POINTS < (List.replicate 866 samplePoint).length ∧
    (∃ h', lookup (updateHistoricalData
        [("t1", List.replicate 866 samplePoint)] [sampleTest] 9).1 sampleTest.id =
          some h' ∧
      h'.length = (List.replicate 866 samplePoint).length ∧
      MAX_HISTORY_POINTS < h'.length ∧
      h' = if shouldAppend (List.replicate 866 samplePoint).getLast?
          (newPointOf 9 sampleTest) then
        (List.replicate 866 samplePoint).tail ++ [newPointOf 9 sampleTest]
      else List.replicate 866 samplePoint) := by
  refine ⟨rfl, rfl, by simp [MAX_HISTORY_POINTS], ?_⟩
  exact c10_cap_preserved_not_established _ [sampleTest] 9 sampleTest _ rfl rfl
    (by simp [MAX_HISTORY_POINTS])

end FishtestTracker
